import Mathlib

/-!
# Asset manager: transaction lifecycle of `routes/manager_handler.go`

A shallow embedding of the HTTP handlers `CreateAsset` and `DestroyAsset` and of
their helpers `waitForConfirmation`, `getPrivKeyAndAddressFromMnemonic`,
`deleteAddressFromWallet` and `makeAndSendAssetCreateTxn`.

The handlers talk to collaborators that live outside the repository (the key
daemon `kmd`, the ledger node `algod`, the SDK's transaction builder and signer,
the database service).  Each collaborator is a field of `Env`.  Remote calls may
answer differently every time, so their reply is a function of the transcript of
everything that happened before the call.  Every collaborator call appends one
`Event` carrying the arguments and the reply, Go style: a value together with an
optional error.

Machine integers (`uint64`) are natural numbers, reduced modulo `2^64` where the
source adds.  The only loop without a bound, the polling loop of
`waitForConfirmation`, takes a fuel argument counting loop iterations; a run
that exhausts it has result `none` and keeps the transcript built so far.
Logging is left out: it never influences control flow.
-/

namespace AssetManager

/-- Go's `error` values. -/
abbrev GoError := String

/-- Bytes of an `ed25519.PrivateKey`. -/
abbrev PrivateKey := String

/-- An unsigned `types.Transaction` as produced by the SDK builders. -/
abbrev Transaction := String

/-- Raw bytes of a signed transaction. -/
abbrev SignedBytes := String

/-- Record `models.AssetCreate`. -/
structure AssetCreate where
  CreatorAddr : String
  AssetName : String
  UnitName : String
  TotalIssuance : Nat
  Decimals : Nat
  DefaultFrozen : Bool
  URL : String
  MetaDataHash : String
  ManagerAddr : String
  ReserveAddr : String
  FreezeAddr : String
  ClawbackAddr : String
deriving DecidableEq

/-- Record `models.AssetDestroy`. -/
structure AssetDestroy where
  AssetID : Nat
  ManagerAddr : String
deriving DecidableEq

/-- The JSON answer of `CreateAsset`. -/
structure response where
  AssetID : Nat
  TXHash : String
deriving DecidableEq

/-- Values of package `constants`, which is not part of the sources at hand. -/
structure Constants where
  TestWalletName : String
  TestWalletPassword : String
  TestAccountMnemonic : String
  TestAccountPublicKey : String
deriving DecidableEq

/-- One entry of the key daemon's wallet list. -/
structure Wallet where
  Name : String
  ID : String
deriving DecidableEq

/-- The node's suggested parameters (`models.TransactionParams`). -/
structure TransactionParams where
  Fee : Nat
  GenesisID : String
  GenesisHash : String
  LastRound : Nat
deriving DecidableEq

/-- The node's view of a pending transaction. -/
structure PendingTxn where
  TxID : String
  ConfirmedRound : Nat
deriving DecidableEq

/-- The node's status. -/
structure NodeStatus where
  LastRound : Nat
deriving DecidableEq

/-- The node's account record; `AssetParams` lists the keys of the Go map in the
order in which `range` happens to visit them. -/
structure Account where
  AssetParams : List Nat
deriving DecidableEq

/-- The argument list handed to `transaction.MakeAssetCreateTxn`. -/
structure CreateTxnArgs where
  account : String
  feePerByte : Nat
  firstRound : Nat
  lastRound : Nat
  note : String
  genesisID : String
  genesisHash : String
  total : Nat
  decimals : Nat
  defaultFrozen : Bool
  manager : String
  reserve : String
  freeze : String
  clawback : String
  unitName : String
  assetName : String
  url : String
  metadataHash : String
deriving DecidableEq

/-- The argument list handed to `transaction.MakeAssetDestroyTxn`. -/
structure DestroyTxnArgs where
  account : String
  feePerByte : Nat
  firstRound : Nat
  lastRound : Nat
  note : String
  genesisID : String
  genesisHash : String
  index : Nat
deriving DecidableEq

/-- One step of a run: a collaborator call with its arguments and its reply, or
the entry into one of the handler's own helper functions. -/
inductive Event where
  | ReadAll (reply : String × Option GoError)
  | Unmarshal (body : String) (err : Option GoError)
  | Marshal (resp : response) (reply : String × Option GoError)
  | SetHeader (key value : String)
  | WriteHeader (code : Nat)
  | Write (body : String)
  | ListWallets (reply : List Wallet × Option GoError)
  | InitWalletHandle (walletID password : String) (reply : String × Option GoError)
  | ToPrivateKey (accountMnemonic : String) (reply : PrivateKey × Option GoError)
  | ImportKey (walletHandle : String) (key : PrivateKey) (reply : String × Option GoError)
  | DeleteKey (walletHandle password address : String) (err : Option GoError)
  | SuggestedParams (reply : TransactionParams × Option GoError)
  | EncodeToString (src : String) (reply : String)
  | MakeAssetCreateTxn (args : CreateTxnArgs) (reply : Transaction × Option GoError)
  | MakeAssetDestroyTxn (args : DestroyTxnArgs) (reply : Transaction × Option GoError)
  | SignTransaction (key : PrivateKey) (txn : Transaction)
      (reply : (String × SignedBytes) × Option GoError)
  | SendRawTransaction (stx : SignedBytes) (reply : String × Option GoError)
  | PendingTransactionInformation (txID : String) (reply : PendingTxn × Option GoError)
  | Status (reply : NodeStatus × Option GoError)
  | StatusAfterBlock (round : Nat)
  | AccountInformation (address : String) (reply : Account × Option GoError)
  | AssetInformation (index : Nat)
  | InsertNewAsset (address assetID : String) (err : Option GoError)
  | getPrivKeyAndAddressFromMnemonic (accountMnemonic : String)
  | deleteAddressFromWallet (address : String)
  | makeAndSendAssetCreateTxn (assetDetails : AssetCreate)
  | waitForConfirmation (txID : String)
deriving DecidableEq

/-- The collaborators of the handler.  Remote services see the transcript so
far; the SDK's local computations and the JSON codec are plain functions. -/
structure Env where
  constants : Constants
  ListWallets : List Event → List Wallet × Option GoError
  InitWalletHandle : List Event → String → String → String × Option GoError
  ImportKey : List Event → String → PrivateKey → String × Option GoError
  DeleteKey : List Event → String → String → String → Option GoError
  ToPrivateKey : String → PrivateKey × Option GoError
  SuggestedParams : List Event → TransactionParams × Option GoError
  SendRawTransaction : List Event → SignedBytes → String × Option GoError
  PendingTransactionInformation : List Event → String → PendingTxn × Option GoError
  Status : List Event → NodeStatus × Option GoError
  AccountInformation : List Event → String → Account × Option GoError
  EncodeToString : String → String
  MakeAssetCreateTxn : CreateTxnArgs → Transaction × Option GoError
  MakeAssetDestroyTxn : DestroyTxnArgs → Transaction × Option GoError
  SignTransaction : PrivateKey → Transaction → (String × SignedBytes) × Option GoError
  InsertNewAsset : List Event → String → String → Option GoError
  UnmarshalCreate : String → AssetCreate × Option GoError
  UnmarshalDestroy : String → AssetDestroy × Option GoError
  Marshal : response → String × Option GoError

/-- An inbound HTTP request: what `ioutil.ReadAll(req.Body)` yields. -/
structure Request where
  Body : String × Option GoError
deriving DecidableEq

/-- A computation that extends the transcript and either finishes with a value
or runs out of fuel. -/
def M (α : Type) : Type := List Event → Option α × List Event

/-- Finish with a value, leaving the transcript as it is. -/
def M.pure {α : Type} (a : α) : M α := fun tr => (some a, tr)

/-- Run `x`, then `f` on its value; a run out of fuel stays out of fuel. -/
def M.bind {α β : Type} (x : M α) (f : α → M β) : M β := fun tr =>
  match x tr with
  | (some a, tr1) => f a tr1
  | (none, tr1) => (none, tr1)

instance : Monad M where
  pure := M.pure
  bind := M.bind

/-- Ask a collaborator: the reply may depend on the transcript so far, and the
call is appended to the transcript together with the reply. -/
def call {α : Type} (reply : List Event → α) (ev : α → Event) : M α := fun tr =>
  (some (reply tr), tr ++ [ev (reply tr)])

/-- Append an event that has no reply. -/
def emit (ev : Event) : M Unit := fun tr => (some (), tr ++ [ev])

/-- The loop ran out of fuel. -/
def outOfFuel {α : Type} : M α := fun tr => (none, tr)

/-- Unsigned 64-bit addition. -/
def addU64 (a b : Nat) : Nat := (a + b) % 2 ^ 64

/-- The wallet lookup loop shared by both wallet helpers: `walletID` starts as
the empty string and is overwritten by every wallet whose name matches. -/
def findWalletID (walletName : String) (wallets : List Wallet) : String :=
  wallets.foldl (fun walletID wallet =>
    if wallet.Name = walletName then wallet.ID else walletID) ""

/-- The loop of `CreateAsset` over the keys of `act.AssetParams`. -/
def maxAssetID (keys : List Nat) : Nat :=
  keys.foldl (fun assetID i => if i > assetID then i else assetID) 0

/-- Polling loop `waitForConfirmation`; one unit of fuel per iteration. -/
def waitLoop (env : Env) (txID : String) : Nat → M Unit
  | 0 => outOfFuel
  | fuel + 1 => do
    let (pt, err) ← call (fun tr => env.PendingTransactionInformation tr txID)
      (Event.PendingTransactionInformation txID)
    match err with
    | some _ => waitLoop env txID fuel
    | none =>
      if pt.ConfirmedRound > 0 then
        pure ()
      else do
        let (nodeStatus, err) ← call env.Status Event.Status
        match err with
        | some _ => pure ()
        | none => do
          emit (Event.StatusAfterBlock (addU64 nodeStatus.LastRound 1))
          waitLoop env txID fuel

/-- Function `waitForConfirmation`. -/
def waitForConfirmation (env : Env) (fuel : Nat) (txID : String) : M Unit := do
  emit (Event.waitForConfirmation txID)
  waitLoop env txID fuel

/-- Function `getPrivKeyAndAddressFromMnemonic`. -/
def getPrivKeyAndAddressFromMnemonic (env : Env) (accountMnemonic : String) :
    M (PrivateKey × String × Option GoError) := do
  emit (Event.getPrivKeyAndAddressFromMnemonic accountMnemonic)
  let (wallets, err) ← call env.ListWallets Event.ListWallets
  match err with
  | some e => pure ("", "", some e)
  | none => do
    let walletID := findWalletID env.constants.TestWalletName wallets
    let (walletHandleToken, err) ←
      call (fun tr => env.InitWalletHandle tr walletID env.constants.TestWalletPassword)
        (Event.InitWalletHandle walletID env.constants.TestWalletPassword)
    match err with
    | some e => pure ("", "", some e)
    | none => do
      let (privateKey, _) ← call (fun _ => env.ToPrivateKey accountMnemonic)
        (Event.ToPrivateKey accountMnemonic)
      let (importedAddress, _) ←
        call (fun tr => env.ImportKey tr walletHandleToken privateKey)
          (Event.ImportKey walletHandleToken privateKey)
      pure (privateKey, importedAddress, none)

/-- Function `deleteAddressFromWallet`. -/
def deleteAddressFromWallet (env : Env) (address : String) : M (Option GoError) := do
  emit (Event.deleteAddressFromWallet address)
  let (wallets, err) ← call env.ListWallets Event.ListWallets
  match err with
  | some e => pure (some e)
  | none => do
    let walletID := findWalletID env.constants.TestWalletName wallets
    let (walletHandleToken, err) ←
      call (fun tr => env.InitWalletHandle tr walletID env.constants.TestWalletPassword)
        (Event.InitWalletHandle walletID env.constants.TestWalletPassword)
    match err with
    | some e => pure (some e)
    | none => do
      let _ ← call
        (fun tr => env.DeleteKey tr walletHandleToken env.constants.TestWalletPassword address)
        (Event.DeleteKey walletHandleToken env.constants.TestWalletPassword address)
      pure none

/-- The arguments `makeAndSendAssetCreateTxn` passes to the SDK builder. -/
def createTxnArgs (assetDetails : AssetCreate) (txnParams : TransactionParams)
    (gHash : String) : CreateTxnArgs :=
  { account := assetDetails.CreatorAddr
    feePerByte := txnParams.Fee
    firstRound := txnParams.LastRound
    lastRound := addU64 txnParams.LastRound 1000
    note := ""
    genesisID := txnParams.GenesisID
    genesisHash := gHash
    total := assetDetails.TotalIssuance
    decimals := assetDetails.Decimals
    defaultFrozen := assetDetails.DefaultFrozen
    manager := assetDetails.ManagerAddr
    reserve := assetDetails.ReserveAddr
    freeze := assetDetails.FreezeAddr
    clawback := assetDetails.ClawbackAddr
    unitName := assetDetails.UnitName
    assetName := assetDetails.AssetName
    url := assetDetails.URL
    metadataHash := assetDetails.MetaDataHash }

/-- The arguments `DestroyAsset` passes to the SDK builder. -/
def destroyTxnArgs (managerAddr : String) (txnParams : TransactionParams)
    (gHash : String) (assetID : Nat) : DestroyTxnArgs :=
  { account := managerAddr
    feePerByte := txnParams.Fee
    firstRound := txnParams.LastRound
    lastRound := addU64 txnParams.LastRound 1000
    note := ""
    genesisID := txnParams.GenesisID
    genesisHash := gHash
    index := assetID }

/-- Function `makeAndSendAssetCreateTxn`: the transaction identifier and the
error it returns. -/
def makeAndSendAssetCreateTxn (env : Env) (fuel : Nat) (assetDetails : AssetCreate)
    (privateKey : PrivateKey) : M (String × Option GoError) := do
  emit (Event.makeAndSendAssetCreateTxn assetDetails)
  let (txnParams, _) ← call env.SuggestedParams Event.SuggestedParams
  let gHash ← call (fun _ => env.EncodeToString txnParams.GenesisHash)
    (Event.EncodeToString txnParams.GenesisHash)
  let args := createTxnArgs assetDetails txnParams gHash
  let (txn, err) ← call (fun _ => env.MakeAssetCreateTxn args) (Event.MakeAssetCreateTxn args)
  match err with
  | some e => pure ("", some e)
  | none => do
    let ((_, stx), err) ← call (fun _ => env.SignTransaction privateKey txn)
      (Event.SignTransaction privateKey txn)
    match err with
    | some e => pure ("", some e)
    | none => do
      let (sentTxID, err) ← call (fun tr => env.SendRawTransaction tr stx)
        (Event.SendRawTransaction stx)
      match err with
      | some e => pure ("", some e)
      | none => do
        waitForConfirmation env fuel sentTxID
        let _ ← deleteAddressFromWallet env assetDetails.CreatorAddr
        pure (sentTxID, none)

/-- Handler `CreateAsset`. -/
def CreateAsset (env : Env) (fuel : Nat) (req : Request) : M Unit := do
  let (body, err) ← call (fun _ => req.Body) Event.ReadAll
  match err with
  | some _ => emit (Event.WriteHeader 400)
  | none => do
    let (assetDetails, err) ← call (fun _ => env.UnmarshalCreate body)
      (fun r => Event.Unmarshal body r.2)
    match err with
    | some _ => emit (Event.WriteHeader 400)
    | none => do
      let (privateKey, address, err) ←
        getPrivKeyAndAddressFromMnemonic env env.constants.TestAccountMnemonic
      match err with
      | some _ => emit (Event.WriteHeader 400)
      | none => do
        let assetDetails := { assetDetails with CreatorAddr := address }
        let (txID, err) ← makeAndSendAssetCreateTxn env fuel assetDetails privateKey
        match err with
        | some _ => emit (Event.WriteHeader 400)
        | none => do
          let (act, err) ←
            call (fun tr => env.AccountInformation tr env.constants.TestAccountPublicKey)
              (Event.AccountInformation env.constants.TestAccountPublicKey)
          match err with
          | some _ => pure ()
          | none => do
            let assetID := maxAssetID act.AssetParams
            emit (Event.AssetInformation assetID)
            let err ←
              call (fun tr => env.InsertNewAsset tr assetDetails.CreatorAddr (Nat.repr assetID))
                (Event.InsertNewAsset assetDetails.CreatorAddr (Nat.repr assetID))
            match err with
            | some _ => emit (Event.WriteHeader 500)
            | none => do
              let resp : response := { AssetID := assetID, TXHash := txID }
              let (respJSON, err) ← call (fun _ => env.Marshal resp) (Event.Marshal resp)
              match err with
              | some _ => emit (Event.WriteHeader 500)
              | none => do
                emit (Event.SetHeader "Content-Type" "application/json")
                emit (Event.Write respJSON)

/-- Handler `DestroyAsset`. -/
def DestroyAsset (env : Env) (fuel : Nat) (req : Request) : M Unit := do
  let (body, err) ← call (fun _ => req.Body) Event.ReadAll
  match err with
  | some _ => emit (Event.WriteHeader 400)
  | none => do
    let (assetDetails, err) ← call (fun _ => env.UnmarshalDestroy body)
      (fun r => Event.Unmarshal body r.2)
    match err with
    | some _ => emit (Event.WriteHeader 400)
    | none => do
      let (privateKey, managerAddr, err) ←
        getPrivKeyAndAddressFromMnemonic env env.constants.TestAccountMnemonic
      match err with
      | some _ => emit (Event.WriteHeader 400)
      | none => do
        let (txnParams, _) ← call env.SuggestedParams Event.SuggestedParams
        let gHash ← call (fun _ => env.EncodeToString txnParams.GenesisHash)
          (Event.EncodeToString txnParams.GenesisHash)
        let args := destroyTxnArgs managerAddr txnParams gHash assetDetails.AssetID
        let (txn, err) ← call (fun _ => env.MakeAssetDestroyTxn args)
          (Event.MakeAssetDestroyTxn args)
        match err with
        | some _ => pure ()
        | none => do
          let ((_, stx), err) ← call (fun _ => env.SignTransaction privateKey txn)
            (Event.SignTransaction privateKey txn)
          match err with
          | some _ => pure ()
          | none => do
            let (sentTxID, err) ← call (fun tr => env.SendRawTransaction tr stx)
              (Event.SendRawTransaction stx)
            match err with
            | some _ => pure ()
            | none => do
              waitForConfirmation env fuel sentTxID
              let _ ← deleteAddressFromWallet env managerAddr
              pure ()

/-! ## Vocabulary for transcripts -/

/-- Events of the confirmation waiter. -/
def Event.isWait : Event → Bool
  | .waitForConfirmation _ => true
  | .PendingTransactionInformation _ _ => true
  | .Status _ => true
  | .StatusAfterBlock _ => true
  | _ => false

/-- Events of the asset-ID discovery: the account read-back and what follows
the loop over its holdings. -/
def Event.isDiscovery : Event → Bool
  | .AccountInformation _ _ => true
  | .AssetInformation _ => true
  | _ => false

/-- Events of the key release helper. -/
def Event.isRelease : Event → Bool
  | .deleteAddressFromWallet _ => true
  | .ListWallets _ => true
  | .InitWalletHandle _ _ _ => true
  | .DeleteKey _ _ _ _ => true
  | _ => false

/-- Events of the key acquisition helper. -/
def Event.isAcquire : Event → Bool
  | .getPrivKeyAndAddressFromMnemonic _ => true
  | .ListWallets _ => true
  | .InitWalletHandle _ _ _ => true
  | .ToPrivateKey _ _ => true
  | .ImportKey _ _ _ => true
  | _ => false

/-- A signing or broadcasting step that returned an error. -/
def Event.isFailedSubmit : Event → Bool
  | .SignTransaction _ _ reply => reply.2.isSome
  | .SendRawTransaction _ reply => reply.2.isSome
  | _ => false

/-- A pending-transaction reply without error that reports a confirmed round. -/
def Event.isConfirmedReply : Event → Bool
  | .PendingTransactionInformation _ reply => reply.2.isNone && decide (reply.1.ConfirmedRound > 0)
  | _ => false

/-- A node-status query that failed. -/
def Event.isFailedStatus : Event → Bool
  | .Status reply => reply.2.isSome
  | _ => false

/-- A pending-transaction query, whatever its reply. -/
def Event.isPoll : Event → Bool
  | .PendingTransactionInformation _ _ => true
  | _ => false

/-- A round wait. -/
def Event.isStatusAfterBlock : Event → Bool
  | .StatusAfterBlock _ => true
  | _ => false

/-- The entry into the key acquisition helper. -/
def Event.isAcquireCall : Event → Bool
  | .getPrivKeyAndAddressFromMnemonic _ => true
  | _ => false

/-- The entry into the key release helper. -/
def Event.isReleaseCall : Event → Bool
  | .deleteAddressFromWallet _ => true
  | _ => false

/-- A call of one of the SDK's transaction builders. -/
def Event.isBuild : Event → Bool
  | .MakeAssetCreateTxn _ _ => true
  | .MakeAssetDestroyTxn _ _ => true
  | _ => false

/-- Neither a confirmed reply nor a failed status query occurs in the list. -/
def stillPolling (evs : List Event) : Bool :=
  evs.all (fun ev => !ev.isConfirmedReply && !ev.isFailedStatus)

/-- Running `x` from any transcript only appends events satisfying `P`, and the
result satisfies `R`. -/
def Spec {α : Type} (x : M α) (R : Option α → Prop) (P : Event → Prop) : Prop :=
  ∀ tr, ∃ ext, (x tr).2 = tr ++ ext ∧ R (x tr).1 ∧ ∀ ev ∈ ext, P ev

/-- No event so far is a failed submit, a waiter event or a discovery event. -/
def Clean (tr : List Event) : Prop :=
  ∀ ev ∈ tr, ev.isFailedSubmit = false ∧ ev.isWait = false ∧ ev.isDiscovery = false

/-- Started from a clean transcript, the run either never records a failed
submit, or finishes without any waiter or discovery event. -/
def SubmitGuard (x : M Unit) : Prop :=
  ∀ tr, Clean tr →
    (∀ ev ∈ (x tr).2, ev.isFailedSubmit = false) ∨
    ((x tr).1 = some () ∧ ∀ ev ∈ (x tr).2, ev.isWait = false ∧ ev.isDiscovery = false)

/-- Events whose content depends on the discovered asset ID, and the read-back
they follow. -/
def Event.isDiscoveryStep : Event → Bool
  | .AccountInformation _ _ => true
  | .AssetInformation _ => true
  | .InsertNewAsset _ _ _ => true
  | .Marshal _ _ => true
  | _ => false

/-- Every successful account read-back in the transcript is followed by the
asset lookup and the database insert for the maximum key of the holdings it
returned, and no lookup, insert or JSON answer carries another ID. -/
def DiscoveryLinked (tr : List Event) : Prop :=
  ∀ address act, Event.AccountInformation address (act, none) ∈ tr →
    Event.AssetInformation (maxAssetID act.AssetParams) ∈ tr ∧
    (∃ owner err,
      Event.InsertNewAsset owner (Nat.repr (maxAssetID act.AssetParams)) err ∈ tr) ∧
    (∀ index, Event.AssetInformation index ∈ tr → index = maxAssetID act.AssetParams) ∧
    (∀ owner assetID err, Event.InsertNewAsset owner assetID err ∈ tr →
      assetID = Nat.repr (maxAssetID act.AssetParams)) ∧
    (∀ resp reply, Event.Marshal resp reply ∈ tr →
      resp.AssetID = maxAssetID act.AssetParams)

/-- Started from a transcript without discovery steps, the run ends with a
transcript in which discovery is linked to the maximum key. -/
def Discovers (x : M Unit) : Prop :=
  ∀ tr, (∀ ev ∈ tr, ev.isDiscoveryStep = false) → DiscoveryLinked (x tr).2

/-! ## The straight-line part of `makeAndSendAssetCreateTxn`, step by step -/

/-- The node's answer to `SuggestedParams` inside `makeAndSendAssetCreateTxn`. -/
def paramsReply (env : Env) (a : AssetCreate) (tr : List Event) :
    TransactionParams × Option GoError :=
  env.SuggestedParams (tr ++ [Event.makeAndSendAssetCreateTxn a])

/-- The arguments the builder receives. -/
def buildArgs (env : Env) (a : AssetCreate) (tr : List Event) : CreateTxnArgs :=
  createTxnArgs a (paramsReply env a tr).1 (env.EncodeToString (paramsReply env a tr).1.GenesisHash)

/-- The builder's answer. -/
def buildReply (env : Env) (a : AssetCreate) (tr : List Event) : Transaction × Option GoError :=
  env.MakeAssetCreateTxn (buildArgs env a tr)

/-- The transcript once the builder has answered. -/
def buildTrace (env : Env) (a : AssetCreate) (tr : List Event) : List Event :=
  tr ++ [Event.makeAndSendAssetCreateTxn a, Event.SuggestedParams (paramsReply env a tr),
    Event.EncodeToString (paramsReply env a tr).1.GenesisHash
      (env.EncodeToString (paramsReply env a tr).1.GenesisHash),
    Event.MakeAssetCreateTxn (buildArgs env a tr) (buildReply env a tr)]

/-- The signer's answer. -/
def signReply (env : Env) (a : AssetCreate) (k : PrivateKey) (tr : List Event) :
    (String × SignedBytes) × Option GoError :=
  env.SignTransaction k (buildReply env a tr).1

/-- The transcript once the signer has answered. -/
def signTrace (env : Env) (a : AssetCreate) (k : PrivateKey) (tr : List Event) : List Event :=
  buildTrace env a tr ++ [Event.SignTransaction k (buildReply env a tr).1 (signReply env a k tr)]

/-- The node's answer to the broadcast. -/
def sendReply (env : Env) (a : AssetCreate) (k : PrivateKey) (tr : List Event) :
    String × Option GoError :=
  env.SendRawTransaction (signTrace env a k tr) (signReply env a k tr).1.2

/-- The transcript once the node has answered the broadcast. -/
def sendTrace (env : Env) (a : AssetCreate) (k : PrivateKey) (tr : List Event) : List Event :=
  signTrace env a k tr ++
    [Event.SendRawTransaction (signReply env a k tr).1.2 (sendReply env a k tr)]

/-! ## Concrete collaborators -/

/-- Sample values for package `constants`. -/
def demoConstants : Constants :=
  { TestWalletName := "testwallet"
    TestWalletPassword := "secret"
    TestAccountMnemonic := "abandon ability"
    TestAccountPublicKey := "CREATOR" }

/-- The asset of the spec's scenario. -/
def demoAsset : AssetCreate :=
  { CreatorAddr := "A", AssetName := "Token", UnitName := "TOK", TotalIssuance := 1000000,
    Decimals := 2, DefaultFrozen := false, URL := "", MetaDataHash := "", ManagerAddr := "A",
    ReserveAddr := "A", FreezeAddr := "A", ClawbackAddr := "A" }

/-- Well-behaved collaborators: the configured wallet exists and the daemon
knows no other wallet ID, the node confirms a transaction once one further round
has been awaited, the builder rejects an empty account and more than 19
decimals. -/
def demoEnv : Env :=
  { constants := demoConstants
    ListWallets := fun _ => ([⟨"other", "w0"⟩, ⟨"testwallet", "w1"⟩], none)
    InitWalletHandle := fun _ walletID _ =>
      if walletID = "w1" then ("h1", none) else ("", some "wallet does not exist")
    ImportKey := fun _ _ _ => ("ADDR", none)
    DeleteKey := fun _ _ _ _ => none
    ToPrivateKey := fun _ => ("KEY", none)
    SuggestedParams := fun _ => (⟨1, "testnet", "hash", 100⟩, none)
    SendRawTransaction := fun _ _ => ("TX1", none)
    PendingTransactionInformation := fun tr txID =>
      (⟨txID, if tr.any Event.isStatusAfterBlock then 102 else 0⟩, none)
    Status := fun _ => (⟨101⟩, none)
    AccountInformation := fun _ _ => (⟨[3, 9, 4]⟩, none)
    EncodeToString := fun s => s
    MakeAssetCreateTxn := fun args =>
      if args.account = "" then ("", some "address decode error")
      else if args.decimals > 19 then ("", some "too many decimals")
      else ("txn", none)
    MakeAssetDestroyTxn := fun _ => ("dtxn", none)
    SignTransaction := fun _ _ => (("TX1", "stx"), none)
    InsertNewAsset := fun _ _ _ => none
    UnmarshalCreate := fun body =>
      (if body = "decimals=20" then { demoAsset with Decimals := 20 } else demoAsset, none)
    UnmarshalDestroy := fun _ => (⟨9, "A"⟩, none)
    Marshal := fun _ => ("json", none) }

/-- A request whose body decodes to `demoAsset`. -/
def demoRequest : Request := { Body := ("body", none) }

/-- A request asking for 20 decimal places, which the builder rejects. -/
def tooManyDecimalsRequest : Request := { Body := ("decimals=20", none) }

/-- The node rejects the broadcast, as it does for an asset destroyed before. -/
def rejectingNodeEnv : Env :=
  { demoEnv with SendRawTransaction := fun _ _ => ("", some "asset does not exist") }

/-- The key daemon refuses the import. -/
def importFailEnv : Env :=
  { demoEnv with ImportKey := fun _ _ _ => ("", some "key already exists in wallet") }

/-- Signing fails. -/
def signFailEnv : Env :=
  { demoEnv with SignTransaction := fun _ _ => (("", ""), some "bad private key") }

/-- The node reports the transaction as unconfirmed and then fails the status
query. -/
def statusDownEnv : Env :=
  { demoEnv with
    PendingTransactionInformation := fun _ txID => (⟨txID, 0⟩, none)
    Status := fun _ => (⟨0⟩, some "connection refused") }

/-- The key daemon cannot be reached. -/
def kmdDownEnv : Env :=
  { demoEnv with ListWallets := fun _ => ([], some "kmd unreachable") }

/-- The key daemon refuses to delete the key. -/
def deleteFailEnv : Env :=
  { demoEnv with DeleteKey := fun _ _ _ _ => some "wrong password" }

/-- No wallet carries the configured name, and the daemon opens a handle for
whatever wallet ID it is given. -/
def lenientDaemonEnv : Env :=
  { demoEnv with
    ListWallets := fun _ => ([⟨"other", "w0"⟩], none)
    InitWalletHandle := fun _ _ _ => ("h0", none) }

/-- No wallet carries the configured name, and the daemon refuses unknown
wallet IDs. -/
def strictDaemonEnv : Env :=
  { demoEnv with ListWallets := fun _ => ([⟨"other", "w0"⟩], none) }

/-! ## Running computations -/

/-- Sequencing, run on a transcript. -/
theorem bind_run {α β : Type} (x : M α) (f : α → M β) (tr : List Event) :
    (x >>= f) tr = match x tr with
      | (some a, tr1) => f a tr1
      | (none, tr1) => (none, tr1) := rfl

/-- A collaborator call followed by a continuation. -/
theorem call_bind {α β : Type} (reply : List Event → α) (ev : α → Event) (f : α → M β)
    (tr : List Event) : (call reply ev >>= f) tr = f (reply tr) (tr ++ [ev (reply tr)]) := rfl

/-- An event followed by a continuation. -/
theorem emit_bind {β : Type} (e : Event) (f : Unit → M β) (tr : List Event) :
    (emit e >>= f) tr = f () (tr ++ [e]) := rfl

/-- Returning leaves the transcript alone. -/
theorem pure_run {α : Type} (a : α) (tr : List Event) : (pure a : M α) tr = (some a, tr) := rfl

/-- An event, run on a transcript. -/
theorem emit_run (e : Event) (tr : List Event) : emit e tr = (some (), tr ++ [e]) := rfl

/-! ## Transcript specifications -/

/-- Returning appends nothing. -/
theorem spec_pure {α : Type} (a : α) (R : Option α → Prop) (P : Event → Prop) (h : R (some a)) :
    Spec (pure a : M α) R P :=
  fun tr => ⟨[], by simp [pure_run], h, by simp⟩

/-- A single event. -/
theorem spec_emit (e : Event) (R : Option Unit → Prop) (P : Event → Prop) (h : R (some ()))
    (hp : P e) : Spec (emit e) R P :=
  fun tr => ⟨[e], rfl, h, by simpa using hp⟩

/-- A single collaborator call always answers. -/
theorem spec_call {α : Type} (reply : List Event → α) (ev : α → Event) (R : Option α → Prop)
    (P : Event → Prop) (h : ∀ a, R (some a)) (hp : ∀ a, P (ev a)) : Spec (call reply ev) R P :=
  fun tr => ⟨[ev (reply tr)], rfl, h _, by simpa using hp _⟩

/-- Running out of fuel appends nothing. -/
theorem spec_outOfFuel {α : Type} (R : Option α → Prop) (P : Event → Prop) (h : R none) :
    Spec (outOfFuel : M α) R P :=
  fun tr => ⟨[], by simp [AssetManager.outOfFuel], h, by simp⟩

/-- Sequencing of two specified computations. -/
theorem spec_bind {α β : Type} {x : M α} {f : α → M β} {R1 : Option α → Prop}
    {R2 : Option β → Prop} {P : Event → Prop} (hx : Spec x R1 P)
    (hf : ∀ a, R1 (some a) → Spec (f a) R2 P) (hn : R1 none → R2 none) :
    Spec (x >>= f) R2 P := by
  intro tr
  obtain ⟨ext, h1, h2, h3⟩ := hx tr
  rw [bind_run]
  rcases hx' : x tr with ⟨_ | a, tr1⟩
  · rw [hx'] at h1 h2
    exact ⟨ext, h1, hn h2, h3⟩
  · rw [hx'] at h1 h2
    simp only at h1
    obtain ⟨ext2, k1, k2, k3⟩ := hf a h2 tr1
    refine ⟨ext ++ ext2, ?_, k2, ?_⟩
    · rw [k1, h1, List.append_assoc]
    · intro ev hev
      rcases List.mem_append.1 hev with h | h
      · exact h3 _ h
      · exact k3 _ h

/-- A specification may be weakened. -/
theorem spec_mono {α : Type} {x : M α} {R R2 : Option α → Prop} {P P2 : Event → Prop}
    (hx : Spec x R P) (hr : ∀ r, R r → R2 r) (hp : ∀ ev, P ev → P2 ev) : Spec x R2 P2 := by
  intro tr
  obtain ⟨ext, h1, h2, h3⟩ := hx tr
  exact ⟨ext, h1, hr _ h2, fun ev hev => hp _ (h3 _ hev)⟩

/-- A collaborator call followed by a specified continuation. -/
theorem spec_call_bind {α β : Type} {reply : List Event → α} {ev : α → Event} {f : α → M β}
    {R : Option β → Prop} {P : Event → Prop} (hp : ∀ a, P (ev a))
    (hf : ∀ a, Spec (f a) R P) : Spec (call reply ev >>= f) R P :=
  spec_bind (spec_call reply ev (fun r => r ≠ none) P (fun _ => by simp) hp) (fun a _ => hf a)
    (fun h => absurd rfl h)

/-- An event followed by a specified continuation. -/
theorem spec_emit_bind {β : Type} {e : Event} {f : Unit → M β}
    {R : Option β → Prop} {P : Event → Prop} (hp : P e)
    (hf : Spec (f ()) R P) : Spec (emit e >>= f) R P :=
  spec_bind (spec_emit e (fun r => r ≠ none) P (by simp) hp) (fun _ _ => hf)
    (fun h => absurd rfl h)

/-- The polling loop only appends waiter events. -/
theorem waitLoop_spec (env : Env) (txID : String) (fuel : Nat) :
    Spec (waitLoop env txID fuel) (fun _ => True) (fun ev => ev.isWait = true) := by
  induction fuel with
  | zero => exact spec_outOfFuel _ _ trivial
  | succ n ih =>
    unfold waitLoop
    refine spec_call_bind (fun _ => rfl) ?_
    rintro ⟨pt, _ | e⟩
    · by_cases hc : pt.ConfirmedRound > 0
      · simp only [hc, if_true]
        exact spec_pure _ _ _ trivial
      · simp only [hc, if_false]
        refine spec_call_bind (fun _ => rfl) ?_
        rintro ⟨st, _ | e⟩
        · exact spec_emit_bind rfl ih
        · exact spec_pure _ _ _ trivial
    · exact ih

/-- The waiter only appends waiter events. -/
theorem waitForConfirmation_spec (env : Env) (fuel : Nat) (txID : String) :
    Spec (waitForConfirmation env fuel txID) (fun _ => True) (fun ev => ev.isWait = true) :=
  spec_emit_bind rfl (waitLoop_spec env txID fuel)

/-- The release helper always returns and only appends release events. -/
theorem deleteAddressFromWallet_spec (env : Env) (address : String) :
    Spec (deleteAddressFromWallet env address) (fun r => r ≠ none)
      (fun ev => ev.isRelease = true) := by
  unfold deleteAddressFromWallet
  refine spec_emit_bind rfl (spec_call_bind (fun _ => rfl) ?_)
  rintro ⟨wallets, _ | e⟩
  · refine spec_call_bind (fun _ => rfl) ?_
    rintro ⟨tok, _ | e⟩
    · exact spec_call_bind (fun _ => rfl) (fun _ => spec_pure _ _ _ (by simp))
    · exact spec_pure _ _ _ (by simp)
  · exact spec_pure _ _ _ (by simp)

/-- The acquisition helper always returns and only appends acquisition events. -/
theorem getPrivKeyAndAddressFromMnemonic_spec (env : Env) (accountMnemonic : String) :
    Spec (getPrivKeyAndAddressFromMnemonic env accountMnemonic) (fun r => r ≠ none)
      (fun ev => ev.isAcquire = true) := by
  unfold getPrivKeyAndAddressFromMnemonic
  refine spec_emit_bind rfl (spec_call_bind (fun _ => rfl) ?_)
  rintro ⟨wallets, _ | e⟩
  · refine spec_call_bind (fun _ => rfl) ?_
    rintro ⟨tok, _ | e⟩
    · refine spec_call_bind (fun _ => rfl) ?_
      rintro ⟨key, err⟩
      refine spec_call_bind (fun _ => rfl) ?_
      rintro ⟨addr, err2⟩
      exact spec_pure _ _ _ (by simp)
    · exact spec_pure _ _ _ (by simp)
  · exact spec_pure _ _ _ (by simp)

/-! ## Branches of `makeAndSendAssetCreateTxn` -/

/-- The builder fails: the helper returns its error right away. -/
theorem makeAndSend_build_fail (env : Env) (fuel : Nat) (a : AssetCreate) (k : PrivateKey)
    (tr : List Event) (e : GoError) (hb : (buildReply env a tr).2 = some e) :
    makeAndSendAssetCreateTxn env fuel a k tr = (some ("", some e), buildTrace env a tr) := by
  simp only [buildReply, buildArgs, paramsReply] at hb
  simp [makeAndSendAssetCreateTxn, emit_bind, call_bind, buildTrace, buildReply, buildArgs,
    paramsReply, hb, pure_run]

/-- Signing fails: the helper returns its error right away. -/
theorem makeAndSend_sign_fail (env : Env) (fuel : Nat) (a : AssetCreate) (k : PrivateKey)
    (tr : List Event) (e : GoError) (hb : (buildReply env a tr).2 = none)
    (hs : (signReply env a k tr).2 = some e) :
    makeAndSendAssetCreateTxn env fuel a k tr = (some ("", some e), signTrace env a k tr) := by
  simp only [signReply, buildReply, buildArgs, paramsReply] at hb hs
  simp [makeAndSendAssetCreateTxn, emit_bind, call_bind, buildTrace, buildReply, buildArgs,
    paramsReply, signTrace, signReply, hb, hs, pure_run]

/-- The broadcast fails: the helper returns its error right away. -/
theorem makeAndSend_send_fail (env : Env) (fuel : Nat) (a : AssetCreate) (k : PrivateKey)
    (tr : List Event) (e : GoError) (hb : (buildReply env a tr).2 = none)
    (hs : (signReply env a k tr).2 = none) (ht : (sendReply env a k tr).2 = some e) :
    makeAndSendAssetCreateTxn env fuel a k tr = (some ("", some e), sendTrace env a k tr) := by
  simp only [sendReply, signTrace, buildTrace, signReply, buildReply, buildArgs, paramsReply,
    List.append_assoc, List.cons_append, List.nil_append] at hb hs ht
  simp [makeAndSendAssetCreateTxn, emit_bind, call_bind, buildTrace, buildReply, buildArgs,
    paramsReply, signTrace, signReply, sendTrace, sendReply, hb, hs, ht, pure_run]

/-- The broadcast succeeds: what remains is the wait, the release and the return of the
broadcast identifier. -/
theorem makeAndSend_sent (env : Env) (fuel : Nat) (a : AssetCreate) (k : PrivateKey)
    (tr : List Event) (hb : (buildReply env a tr).2 = none)
    (hs : (signReply env a k tr).2 = none) (ht : (sendReply env a k tr).2 = none) :
    makeAndSendAssetCreateTxn env fuel a k tr =
      (waitForConfirmation env fuel (sendReply env a k tr).1 >>= fun _ =>
        deleteAddressFromWallet env a.CreatorAddr >>= fun _ =>
          (pure ((sendReply env a k tr).1, none) : M (String × Option GoError)))
        (sendTrace env a k tr) := by
  simp only [sendReply, signTrace, buildTrace, signReply, buildReply, buildArgs, paramsReply,
    List.append_assoc, List.cons_append, List.nil_append] at hb hs ht
  simp [makeAndSendAssetCreateTxn, emit_bind, call_bind, buildTrace, buildReply, buildArgs,
    paramsReply, signTrace, signReply, sendTrace, sendReply, hb, hs, ht]

/-- After a broadcast the helper only appends waiter and release events, and if it
returns, it returns the broadcast identifier without error. -/
theorem afterSend_spec (env : Env) (fuel : Nat) (address txID : String) :
    Spec (waitForConfirmation env fuel txID >>= fun _ =>
        deleteAddressFromWallet env address >>= fun _ =>
          (pure (txID, none) : M (String × Option GoError)))
      (fun r => r = none ∨ r = some (txID, none))
      (fun ev => ev.isWait = true ∨ ev.isRelease = true) := by
  refine spec_bind (spec_mono (waitForConfirmation_spec env fuel txID) (fun _ h => h)
    (fun _ h => Or.inl h)) (fun _ _ => ?_) (fun _ => Or.inl rfl)
  refine spec_bind (spec_mono (deleteAddressFromWallet_spec env address) (fun _ h => h)
    (fun _ h => Or.inr h)) (fun _ _ => ?_) (fun h => absurd rfl h)
  exact spec_pure _ _ _ (Or.inr rfl)

/-- Every run of the create helper extends the transcript by the four opening events
and then by events that are not builder calls. -/
theorem makeAndSend_trace (env : Env) (fuel : Nat) (a : AssetCreate) (k : PrivateKey)
    (tr : List Event) :
    ∃ rest, (makeAndSendAssetCreateTxn env fuel a k tr).2 = buildTrace env a tr ++ rest ∧
      ∀ ev ∈ rest, ev.isBuild = false := by
  rcases hb : (buildReply env a tr).2 with _ | e
  · rcases hs : (signReply env a k tr).2 with _ | e
    · rcases ht : (sendReply env a k tr).2 with _ | e
      · rw [makeAndSend_sent env fuel a k tr hb hs ht]
        obtain ⟨ext, h1, -, h3⟩ := afterSend_spec env fuel a.CreatorAddr (sendReply env a k tr).1
          (sendTrace env a k tr)
        refine ⟨Event.SignTransaction k (buildReply env a tr).1 (signReply env a k tr) ::
          Event.SendRawTransaction (signReply env a k tr).1.2 (sendReply env a k tr) :: ext,
          by rw [h1]; simp [sendTrace, signTrace], ?_⟩
        intro ev hev
        simp only [List.mem_cons] at hev
        rcases hev with rfl | rfl | h
        · rfl
        · rfl
        · have := h3 ev h
          cases ev <;> simp [Event.isWait, Event.isRelease, Event.isBuild] at this ⊢
      · rw [makeAndSend_send_fail env fuel a k tr e hb hs ht]
        refine ⟨[Event.SignTransaction k (buildReply env a tr).1 (signReply env a k tr),
          Event.SendRawTransaction (signReply env a k tr).1.2 (sendReply env a k tr)],
          by simp [sendTrace, signTrace], ?_⟩
        intro ev hev
        simp only [List.mem_cons, List.mem_singleton, List.not_mem_nil, or_false] at hev
        rcases hev with rfl | rfl <;> rfl
    · rw [makeAndSend_sign_fail env fuel a k tr e hb hs]
      refine ⟨[Event.SignTransaction k (buildReply env a tr).1 (signReply env a k tr)],
        by simp [signTrace], ?_⟩
      intro ev hev
      simp only [List.mem_singleton] at hev
      rw [hev]
      rfl
  · rw [makeAndSend_build_fail env fuel a k tr e hb]
    exact ⟨[], by simp, by simp⟩

/-! ## Failed submits against waiter and discovery events -/

/-- A computation that always returns and records no waiter or discovery event. -/
theorem submitGuard_of_quiet {x : M Unit}
    (hx : Spec x (fun r => r ≠ none) (fun ev => ev.isWait = false ∧ ev.isDiscovery = false)) :
    SubmitGuard x := by
  intro tr htr
  obtain ⟨ext, h1, h2, h3⟩ := hx tr
  right
  refine ⟨?_, ?_⟩
  · rcases h : (x tr).1 with _ | u
    · exact absurd h h2
    · rfl
  · rw [h1]
    intro ev hev
    rcases List.mem_append.1 hev with h | h
    · exact (htr ev h).2
    · exact h3 ev h

/-- A neutral step that always returns, followed by a guarded continuation. -/
theorem submitGuard_bind {α : Type} {x : M α} {f : α → M Unit}
    (hx : Spec x (fun r => r ≠ none)
      (fun ev => ev.isFailedSubmit = false ∧ ev.isWait = false ∧ ev.isDiscovery = false))
    (hf : ∀ a, SubmitGuard (f a)) : SubmitGuard (x >>= f) := by
  intro tr htr
  obtain ⟨ext, h1, h2, h3⟩ := hx tr
  rw [bind_run]
  rcases h : x tr with ⟨_ | a, tr1⟩
  · rw [h] at h2
    exact absurd rfl h2
  · rw [h] at h1
    simp only at h1
    refine hf a tr1 ?_
    rw [h1]
    intro ev hev
    rcases List.mem_append.1 hev with h | h
    · exact htr ev h
    · exact h3 ev h

/-- A neutral collaborator call followed by a guarded continuation. -/
theorem submitGuard_call_bind {α : Type} {reply : List Event → α} {ev : α → Event}
    {f : α → M Unit}
    (hp : ∀ a, (ev a).isFailedSubmit = false ∧ (ev a).isWait = false ∧ (ev a).isDiscovery = false)
    (hf : ∀ a, SubmitGuard (f a)) : SubmitGuard (call reply ev >>= f) :=
  submitGuard_bind (spec_call reply ev _ _ (fun _ => by simp) hp) hf

/-- The create helper followed by a continuation that is quiet after an error and
records no failed submit after a success. -/
theorem submitGuard_makeAndSend_bind (env : Env) (fuel : Nat) (a : AssetCreate) (k : PrivateKey)
    (f : String × Option GoError → M Unit)
    (hfail : ∀ e, Spec (f ("", some e)) (fun r => r ≠ none)
      (fun ev => ev.isWait = false ∧ ev.isDiscovery = false))
    (hok : ∀ t, Spec (f (t, none)) (fun _ => True) (fun ev => ev.isFailedSubmit = false)) :
    SubmitGuard (makeAndSendAssetCreateTxn env fuel a k >>= f) := by
  intro tr htr
  have quiet : ∀ e trace, (∀ ev ∈ trace, ev.isWait = false ∧ ev.isDiscovery = false) →
      (f ("", some e) trace).1 = some () ∧
        ∀ ev ∈ (f ("", some e) trace).2, ev.isWait = false ∧ ev.isDiscovery = false := by
    intro e trace htrace
    obtain ⟨ext, h1, h2, h3⟩ := hfail e trace
    refine ⟨?_, ?_⟩
    · rcases h : (f ("", some e) trace).1 with _ | u
      · exact absurd h h2
      · rfl
    · rw [h1]
      intro ev hev
      rcases List.mem_append.1 hev with h | h
      · exact htrace ev h
      · exact h3 ev h
  rw [bind_run]
  rcases hb : (buildReply env a tr).2 with _ | e
  · rcases hs : (signReply env a k tr).2 with _ | e
    · rcases ht : (sendReply env a k tr).2 with _ | e
      · left
        rw [makeAndSend_sent env fuel a k tr hb hs ht]
        have hk : Spec ((waitForConfirmation env fuel (sendReply env a k tr).1 >>= fun _ =>
            deleteAddressFromWallet env a.CreatorAddr >>= fun _ =>
              (pure ((sendReply env a k tr).1, none) : M (String × Option GoError))) >>= f)
            (fun _ => True) (fun ev => ev.isFailedSubmit = false) := by
          refine spec_bind (spec_mono (afterSend_spec env fuel a.CreatorAddr
            (sendReply env a k tr).1) (fun _ h => h) ?_) ?_ (fun _ => trivial)
          · intro ev hev
            cases ev <;> simp [Event.isWait, Event.isRelease, Event.isFailedSubmit] at hev ⊢
          · rintro r (h | h)
            · simp at h
            · rw [Option.some.inj h]
              exact hok _
        obtain ⟨ext, h1, -, h3⟩ := hk (sendTrace env a k tr)
        rw [bind_run] at h1
        rw [h1]
        intro ev hev
        rcases List.mem_append.1 hev with h | h
        · simp only [sendTrace, signTrace, buildTrace, List.mem_append, List.mem_cons,
            List.mem_singleton, List.not_mem_nil, or_false] at h
          rcases h with ((h | h | h | h | h) | h) | h
          · exact (htr ev h).1
          all_goals subst h
          all_goals simp [Event.isFailedSubmit, hs, ht]
        · exact h3 ev h
      · right
        rw [makeAndSend_send_fail env fuel a k tr e hb hs ht]
        refine quiet e _ ?_
        intro ev h
        simp only [sendTrace, signTrace, buildTrace, List.mem_append, List.mem_cons,
          List.mem_singleton, List.not_mem_nil, or_false] at h
        rcases h with ((h | h | h | h | h) | h) | h
        · exact (htr ev h).2
        all_goals subst h
        all_goals simp [Event.isWait, Event.isDiscovery]
    · right
      rw [makeAndSend_sign_fail env fuel a k tr e hb hs]
      refine quiet e _ ?_
      intro ev h
      simp only [signTrace, buildTrace, List.mem_append, List.mem_cons,
        List.mem_singleton, List.not_mem_nil, or_false] at h
      rcases h with (h | h | h | h | h) | h
      · exact (htr ev h).2
      all_goals subst h
      all_goals simp [Event.isWait, Event.isDiscovery]
  · right
    rw [makeAndSend_build_fail env fuel a k tr e hb]
    refine quiet e _ ?_
    intro ev h
    simp only [buildTrace, List.mem_append, List.mem_cons,
      List.mem_singleton, List.not_mem_nil, or_false] at h
    rcases h with h | h | h | h | h
    · exact (htr ev h).2
    all_goals subst h
    all_goals simp [Event.isWait, Event.isDiscovery]

/-- The handler `CreateAsset` never has both a failed submit and a waiter or
discovery event in its transcript. -/
theorem createAsset_submitGuard (env : Env) (fuel : Nat) (req : Request) :
    SubmitGuard (CreateAsset env fuel req) := by
  unfold CreateAsset
  refine submitGuard_call_bind (fun _ => ⟨rfl, rfl, rfl⟩) ?_
  rintro ⟨body, _ | e⟩
  · refine submitGuard_call_bind (fun _ => ⟨rfl, rfl, rfl⟩) ?_
    rintro ⟨assetDetails, _ | e⟩
    · refine submitGuard_bind (spec_mono (getPrivKeyAndAddressFromMnemonic_spec env _)
        (fun _ h => h) ?_) ?_
      · intro ev hev
        cases ev <;> simp [Event.isAcquire, Event.isFailedSubmit, Event.isWait,
          Event.isDiscovery] at hev ⊢
      · rintro ⟨privateKey, address, _ | e⟩
        · refine submitGuard_makeAndSend_bind env fuel _ _ _ ?_ ?_
          · intro e
            exact spec_emit _ _ _ (by simp) ⟨rfl, rfl⟩
          · intro t
            refine spec_call_bind (fun _ => rfl) ?_
            rintro ⟨act, _ | e⟩
            · refine spec_emit_bind rfl (spec_call_bind (fun _ => rfl) ?_)
              rintro (_ | e)
              · refine spec_call_bind (fun _ => rfl) ?_
                rintro ⟨respJSON, _ | e⟩
                · exact spec_emit_bind rfl (spec_emit _ _ _ trivial rfl)
                · exact spec_emit _ _ _ trivial rfl
              · exact spec_emit _ _ _ trivial rfl
            · exact spec_pure _ _ _ trivial
        · exact submitGuard_of_quiet (spec_emit _ _ _ (by simp) ⟨rfl, rfl⟩)
    · exact submitGuard_of_quiet (spec_emit _ _ _ (by simp) ⟨rfl, rfl⟩)
  · exact submitGuard_of_quiet (spec_emit _ _ _ (by simp) ⟨rfl, rfl⟩)

/-! ## The polling loop, the discovery loop and the wallet lookup -/

/-- Unfolding of `stillPolling` on a non-empty list. -/
theorem stillPolling_cons (ev : Event) (evs : List Event) :
    stillPolling (ev :: evs) = ((!ev.isConfirmedReply && !ev.isFailedStatus) && stillPolling evs) := by
  simp [stillPolling]

/-- The three ways in which a run of the polling loop can end. -/
theorem waitLoop_outcome (env : Env) (txID : String) (fuel : Nat) (tr : List Event) :
    ∃ ext, (waitLoop env txID fuel tr).2 = tr ++ ext ∧
      (((waitLoop env txID fuel tr).1 = some () ∧ ∃ pre pt,
          ext = pre ++ [Event.PendingTransactionInformation txID (pt, none)] ∧
            0 < pt.ConfirmedRound ∧ stillPolling pre = true)
        ∨ ((waitLoop env txID fuel tr).1 = some () ∧ ∃ pre pt st e,
          ext = pre ++ [Event.PendingTransactionInformation txID (pt, none),
            Event.Status (st, some e)] ∧ pt.ConfirmedRound = 0 ∧ stillPolling pre = true)
        ∨ ((waitLoop env txID fuel tr).1 = none ∧ stillPolling ext = true ∧
          ext.countP Event.isPoll = fuel)) := by
  induction fuel generalizing tr with
  | zero =>
    refine ⟨[], by simp [waitLoop, outOfFuel], Or.inr (Or.inr ⟨?_, ?_, ?_⟩)⟩
    · simp [waitLoop, outOfFuel]
    · simp [stillPolling]
    · simp
  | succ n ih =>
    simp only [waitLoop, call_bind]
    rcases hp : env.PendingTransactionInformation tr txID with ⟨pt, _ | e⟩
    · by_cases hc : pt.ConfirmedRound > 0
      · simp only [hc, if_true, pure_run]
        exact ⟨[Event.PendingTransactionInformation txID (pt, none)], rfl,
          Or.inl ⟨trivial, [], pt, rfl, hc, by simp [stillPolling]⟩⟩
      · simp only [hc, if_false, call_bind]
        have hz : pt.ConfirmedRound = 0 := by omega
        rcases hs : env.Status (tr ++ [Event.PendingTransactionInformation txID (pt, none)])
          with ⟨st, _ | e⟩
        · simp only [emit_bind]
          obtain ⟨ext, h1, h2⟩ := ih (tr ++ [Event.PendingTransactionInformation txID (pt, none)]
            ++ [Event.Status (st, none)] ++ [Event.StatusAfterBlock (addU64 st.LastRound 1)])
          refine ⟨Event.PendingTransactionInformation txID (pt, none) :: Event.Status (st, none)
            :: Event.StatusAfterBlock (addU64 st.LastRound 1) :: ext, ?_, ?_⟩
          · rw [h1]; simp
          · rcases h2 with ⟨hr, pre, pt2, he, hpos, hq⟩ | ⟨hr, pre, pt2, st2, e2, he, hzero, hq⟩
              | ⟨hr, hq, hcount⟩
            · refine Or.inl ⟨hr, Event.PendingTransactionInformation txID (pt, none)
                :: Event.Status (st, none) :: Event.StatusAfterBlock (addU64 st.LastRound 1)
                :: pre, pt2, by simp [he], hpos, ?_⟩
              simp [stillPolling_cons, hq, Event.isConfirmedReply, Event.isFailedStatus, hz]
            · refine Or.inr (Or.inl ⟨hr, Event.PendingTransactionInformation txID (pt, none)
                :: Event.Status (st, none) :: Event.StatusAfterBlock (addU64 st.LastRound 1)
                :: pre, pt2, st2, e2, by simp [he], hzero, ?_⟩)
              simp [stillPolling_cons, hq, Event.isConfirmedReply, Event.isFailedStatus, hz]
            · refine Or.inr (Or.inr ⟨hr, ?_, ?_⟩)
              · simp [stillPolling_cons, hq, Event.isConfirmedReply, Event.isFailedStatus, hz]
              · simp [List.countP_cons, Event.isPoll, hcount]
        · simp only [pure_run]
          exact ⟨[Event.PendingTransactionInformation txID (pt, none), Event.Status (st, some e)],
            by simp, Or.inr (Or.inl ⟨trivial, [], pt, st, e, rfl, hz, by simp [stillPolling]⟩)⟩
    · simp only []
      obtain ⟨ext, h1, h2⟩ := ih (tr ++ [Event.PendingTransactionInformation txID (pt, some e)])
      refine ⟨Event.PendingTransactionInformation txID (pt, some e) :: ext, ?_, ?_⟩
      · rw [h1]; simp
      · rcases h2 with ⟨hr, pre, pt2, he, hpos, hq⟩ | ⟨hr, pre, pt2, st2, e2, he, hzero, hq⟩
          | ⟨hr, hq, hcount⟩
        · refine Or.inl ⟨hr, Event.PendingTransactionInformation txID (pt, some e) :: pre, pt2,
            by simp [he], hpos, ?_⟩
          simp [stillPolling_cons, hq, Event.isConfirmedReply, Event.isFailedStatus]
        · refine Or.inr (Or.inl ⟨hr, Event.PendingTransactionInformation txID (pt, some e) :: pre,
            pt2, st2, e2, by simp [he], hzero, ?_⟩)
          simp [stillPolling_cons, hq, Event.isConfirmedReply, Event.isFailedStatus]
        · refine Or.inr (Or.inr ⟨hr, ?_, ?_⟩)
          · simp [stillPolling_cons, hq, Event.isConfirmedReply, Event.isFailedStatus]
          · simp [List.countP_cons, Event.isPoll, hcount]

/-- The discovery loop started from any value: the result bounds the start value and
every key, and is the start value or one of the keys. -/
theorem foldl_max_spec (keys : List Nat) (acc : Nat) :
    acc ≤ keys.foldl (fun assetID i => if i > assetID then i else assetID) acc ∧
    (∀ k ∈ keys, k ≤ keys.foldl (fun assetID i => if i > assetID then i else assetID) acc) ∧
    (keys.foldl (fun assetID i => if i > assetID then i else assetID) acc = acc ∨
      keys.foldl (fun assetID i => if i > assetID then i else assetID) acc ∈ keys) := by
  induction keys generalizing acc with
  | nil => simp
  | cons x xs ih =>
    simp only [List.foldl_cons, List.mem_cons]
    obtain ⟨h1, h2, h3⟩ := ih (if x > acc then x else acc)
    have hle : acc ≤ (if x > acc then x else acc) ∧ x ≤ (if x > acc then x else acc) := by
      by_cases hx : x > acc
      · simp only [hx, if_true]; omega
      · simp only [hx, if_false]; omega
    refine ⟨le_trans hle.1 h1, ?_, ?_⟩
    · rintro k (rfl | hk)
      · exact le_trans hle.2 h1
      · exact h2 k hk
    · rcases h3 with h3 | h3
      · by_cases hx : x > acc
        · simp only [hx, if_true] at h3 ⊢
          exact Or.inr (Or.inl h3)
        · simp only [hx, if_false] at h3 ⊢
          exact Or.inl h3
      · exact Or.inr (Or.inr h3)

/-- The lookup loop leaves its start value alone when no wallet name matches. -/
theorem findWalletID_no_match (walletName : String) (wallets : List Wallet) (acc : String)
    (h : ∀ w ∈ wallets, w.Name ≠ walletName) :
    wallets.foldl (fun walletID wallet =>
      if wallet.Name = walletName then wallet.ID else walletID) acc = acc := by
  induction wallets generalizing acc with
  | nil => rfl
  | cons w ws ih =>
    simp only [List.foldl_cons, h w (List.mem_cons_self w ws), if_false]
    exact ih acc (fun w2 hw => h w2 (List.mem_cons_of_mem w hw))

/-! ## From the account read-back to the recorded asset ID -/

/-- The discovery loop on any list of keys: 0 on the empty list, otherwise one of
the keys, greater than or equal to every key. -/
theorem maxAssetID_is_maximum (keys : List Nat) :
    (keys = [] → maxAssetID keys = 0) ∧
    (keys ≠ [] → maxAssetID keys ∈ keys ∧ ∀ k ∈ keys, k ≤ maxAssetID keys) := by
  refine ⟨fun h => by rw [h]; rfl, fun hne => ?_⟩
  obtain ⟨-, h2, h3⟩ := foldl_max_spec keys 0
  refine ⟨?_, h2⟩
  rcases h3 with h3 | h3
  · rcases keys with _ | ⟨x, xs⟩
    · exact absurd rfl hne
    · have hx : x ≤ 0 := by
        have := h2 x (List.mem_cons_self x xs)
        rw [h3] at this
        exact this
      have hx0 : x = 0 := by omega
      unfold maxAssetID
      rw [h3, hx0]
      exact List.mem_cons_self 0 xs
  · exact h3

/-- A computation without discovery steps. -/
theorem discovers_of_quiet {x : M Unit}
    (hx : Spec x (fun _ => True) (fun ev => ev.isDiscoveryStep = false)) : Discovers x := by
  intro tr htr address act hmem
  obtain ⟨ext, h1, -, h3⟩ := hx tr
  rw [h1] at hmem
  have : (Event.AccountInformation address (act, none)).isDiscoveryStep = false := by
    rcases List.mem_append.1 hmem with h | h
    · exact htr _ h
    · exact h3 _ h
  simp [Event.isDiscoveryStep] at this

/-- A step without discovery steps, followed by a continuation that discovers. -/
theorem discovers_bind {α : Type} {x : M α} {f : α → M Unit}
    (hx : Spec x (fun _ => True) (fun ev => ev.isDiscoveryStep = false))
    (hf : ∀ a, Discovers (f a)) : Discovers (x >>= f) := by
  intro tr htr
  obtain ⟨ext, h1, -, h3⟩ := hx tr
  have hq : ∀ ev ∈ (x tr).2, ev.isDiscoveryStep = false := by
    rw [h1]
    intro ev hev
    rcases List.mem_append.1 hev with h | h
    · exact htr ev h
    · exact h3 ev h
  rw [bind_run]
  rcases h : x tr with ⟨_ | a, tr1⟩
  · rw [h] at hq
    intro address act hmem
    have := hq _ hmem
    simp [Event.isDiscoveryStep] at this
  · rw [h] at hq
    exact hf a tr1 hq

/-- A collaborator call that is no discovery step, followed by a continuation that
discovers. -/
theorem discovers_call_bind {α : Type} {reply : List Event → α} {ev : α → Event}
    {f : α → M Unit} (hp : ∀ a, (ev a).isDiscoveryStep = false)
    (hf : ∀ a, Discovers (f a)) : Discovers (call reply ev >>= f) :=
  discovers_bind (spec_call reply ev _ _ (fun _ => trivial) hp) hf

/-- The create helper records no discovery step. -/
theorem makeAndSend_quiet (env : Env) (fuel : Nat) (a : AssetCreate) (k : PrivateKey) :
    Spec (makeAndSendAssetCreateTxn env fuel a k) (fun _ => True)
      (fun ev => ev.isDiscoveryStep = false) := by
  unfold makeAndSendAssetCreateTxn
  refine spec_emit_bind rfl (spec_call_bind (fun _ => rfl) ?_)
  rintro ⟨txnParams, perr⟩
  refine spec_call_bind (fun _ => rfl) (fun gHash => spec_call_bind (fun _ => rfl) ?_)
  rintro ⟨txn, _ | e⟩
  · refine spec_call_bind (fun _ => rfl) ?_
    rintro ⟨⟨txid, stx⟩, _ | e⟩
    · refine spec_call_bind (fun _ => rfl) ?_
      rintro ⟨sentTxID, _ | e⟩
      · refine spec_mono (afterSend_spec env fuel a.CreatorAddr sentTxID) (fun _ _ => trivial) ?_
        intro ev hev
        cases ev <;> simp [Event.isWait, Event.isRelease, Event.isDiscoveryStep] at hev ⊢
      · exact spec_pure _ _ _ trivial
    · exact spec_pure _ _ _ trivial
  · exact spec_pure _ _ _ trivial

/-- In every run of `CreateAsset` the asset lookup, the database insert and the JSON
answer carry the maximum key of the holdings that were read back. -/
theorem createAsset_discovers (env : Env) (fuel : Nat) (req : Request) :
    Discovers (CreateAsset env fuel req) := by
  unfold CreateAsset
  refine discovers_call_bind (fun _ => rfl) ?_
  rintro ⟨body, _ | e⟩
  · refine discovers_call_bind (fun _ => rfl) ?_
    rintro ⟨assetDetails, _ | e⟩
    · refine discovers_bind (spec_mono (getPrivKeyAndAddressFromMnemonic_spec env _)
        (fun _ _ => trivial) ?_) ?_
      · intro ev hev
        cases ev <;> simp [Event.isAcquire, Event.isDiscoveryStep] at hev ⊢
      · rintro ⟨privateKey, address, _ | e⟩
        · refine discovers_bind (makeAndSend_quiet env fuel _ _) ?_
          rintro ⟨txID, _ | e⟩
          · intro tr htr
            have hA : ∀ a r, Event.AccountInformation a r ∉ tr := fun a r h =>
              absurd (htr _ h) (by simp [Event.isDiscoveryStep])
            have hI : ∀ i, Event.AssetInformation i ∉ tr := fun i h =>
              absurd (htr _ h) (by simp [Event.isDiscoveryStep])
            have hN : ∀ o i e, Event.InsertNewAsset o i e ∉ tr := fun o i e h =>
              absurd (htr _ h) (by simp [Event.isDiscoveryStep])
            have hM : ∀ r p, Event.Marshal r p ∉ tr := fun r p h =>
              absurd (htr _ h) (by simp [Event.isDiscoveryStep])
            simp only [call_bind, emit_bind]
            rcases ha : env.AccountInformation tr env.constants.TestAccountPublicKey
              with ⟨act, _ | e⟩
            · rcases hins : env.InsertNewAsset
                (tr ++ [Event.AccountInformation env.constants.TestAccountPublicKey (act, none)]
                  ++ [Event.AssetInformation (maxAssetID act.AssetParams)])
                address (Nat.repr (maxAssetID act.AssetParams)) with _ | e
              · rcases hmar : env.Marshal
                  { AssetID := maxAssetID act.AssetParams, TXHash := txID } with ⟨respJSON, _ | e⟩
                · simp only [hins, hmar, emit_bind, call_bind, emit_run]
                  intro address2 act2 hmem
                  simp only [List.mem_append, List.mem_singleton, hA, hI, hN, hM, false_or,
                    reduceCtorEq, or_false, Event.AccountInformation.injEq, Prod.mk.injEq,
                    and_true] at hmem
                  obtain ⟨-, rfl⟩ := hmem
                  simp [hA, hI, hN, hM]
                  intro _ _ _ _ h _
                  exact h
                · simp only [hins, hmar, emit_bind, call_bind, emit_run]
                  intro address2 act2 hmem
                  simp only [List.mem_append, List.mem_singleton, hA, hI, hN, hM, false_or,
                    reduceCtorEq, or_false, Event.AccountInformation.injEq, Prod.mk.injEq,
                    and_true] at hmem
                  obtain ⟨-, rfl⟩ := hmem
                  simp [hA, hI, hN, hM]
                  intro _ _ _ _ h _
                  exact h
              · simp only [hins, emit_bind, call_bind, emit_run]
                intro address2 act2 hmem
                simp only [List.mem_append, List.mem_singleton, hA, hI, hN, hM, false_or,
                  reduceCtorEq, or_false, Event.AccountInformation.injEq, Prod.mk.injEq,
                  and_true] at hmem
                obtain ⟨-, rfl⟩ := hmem
                simp [hA, hI, hN, hM]
                intro _ _ _ _ h _
                exact h
            · simp only [pure_run]
              intro address2 act2 hmem
              simp [hA] at hmem
          · exact discovers_of_quiet (spec_emit _ _ _ trivial rfl)
        · exact discovers_of_quiet (spec_emit _ _ _ trivial rfl)
    · exact discovers_of_quiet (spec_emit _ _ _ trivial rfl)
  · exact discovers_of_quiet (spec_emit _ _ _ trivial rfl)

/-! ## The claims -/

/-- Claim C1, evaluated where the code departs from it.  Create: the request asks
for 20 decimals, the key is imported, the builder rejects the transaction, and
the handler answers 400 having entered the acquisition helper once and the
release helper never.  Destroy: the node rejects the broadcast, and again the
imported key is never released. -/
theorem C1_acquired_key_is_not_released_on_error_exits :
    ((CreateAsset demoEnv 3 tooManyDecimalsRequest []).1 = some ()
      ∧ Event.ImportKey "h1" "KEY" ("ADDR", none)
          ∈ (CreateAsset demoEnv 3 tooManyDecimalsRequest []).2
      ∧ (CreateAsset demoEnv 3 tooManyDecimalsRequest []).2.countP Event.isAcquireCall = 1
      ∧ (CreateAsset demoEnv 3 tooManyDecimalsRequest []).2.countP Event.isReleaseCall = 0)
    ∧ ((DestroyAsset rejectingNodeEnv 3 demoRequest []).1 = some ()
      ∧ Event.ImportKey "h1" "KEY" ("ADDR", none)
          ∈ (DestroyAsset rejectingNodeEnv 3 demoRequest []).2
      ∧ (DestroyAsset rejectingNodeEnv 3 demoRequest []).2.countP Event.isAcquireCall = 1
      ∧ (DestroyAsset rejectingNodeEnv 3 demoRequest []).2.countP Event.isReleaseCall = 0) := by
  decide

/-- Claim C2, evaluated where the code departs from it.  The key daemon refuses
the import, yet `getPrivKeyAndAddressFromMnemonic` returns no error (and an empty
address), so `CreateAsset` goes on and invokes the transaction builder. -/
theorem C2_import_failure_is_ignored :
    (CreateAsset importFailEnv 3 demoRequest []).1 = some ()
    ∧ Event.ImportKey "h1" "KEY" ("", some "key already exists in wallet")
        ∈ (CreateAsset importFailEnv 3 demoRequest []).2
    ∧ (CreateAsset importFailEnv 3 demoRequest []).2.countP Event.isBuild = 1
    ∧ (getPrivKeyAndAddressFromMnemonic importFailEnv "abandon ability" []).1
        = some ("KEY", "", none) := by
  decide

/-- Claim C3.  In every run of `CreateAsset` in which signing or broadcasting
returned an error, the handler finishes, and its transcript holds no event of
the confirmation waiter (neither its entry, nor a pending-transaction query, nor
a status query, nor a round wait) and no event of the asset-ID discovery. -/
theorem C3_failed_submit_skips_confirmation_and_discovery (env : Env) (fuel : Nat)
    (req : Request)
    (hfail : ∃ ev ∈ (CreateAsset env fuel req []).2, ev.isFailedSubmit = true) :
    (CreateAsset env fuel req []).1 = some () ∧
      ∀ ev ∈ (CreateAsset env fuel req []).2, ev.isWait = false ∧ ev.isDiscovery = false := by
  rcases createAsset_submitGuard env fuel req [] (by intro ev h; simp at h) with h | h
  · obtain ⟨ev, hev, hf⟩ := hfail
    rw [h ev hev] at hf
    exact absurd hf (by simp)
  · exact h

/-- Claim C3 at a run whose signing step fails. -/
theorem C3_witness :
    (∃ ev ∈ (CreateAsset signFailEnv 3 demoRequest []).2, ev.isFailedSubmit = true) ∧
    ((CreateAsset signFailEnv 3 demoRequest []).1 = some () ∧
      ∀ ev ∈ (CreateAsset signFailEnv 3 demoRequest []).2,
        ev.isWait = false ∧ ev.isDiscovery = false) :=
  ⟨by decide,
    C3_failed_submit_skips_confirmation_and_discovery signFailEnv 3 demoRequest (by decide)⟩

/-- Claim C4 fails as stated: the node reports confirmed round 0 and then fails
the status query; the waiter returns right there instead of polling again, and
`makeAndSendAssetCreateTxn` returns the transaction identifier with no error. -/
theorem C4_waiter_returns_unconfirmed_on_status_error :
    waitForConfirmation statusDownEnv 3 "TX1" [] =
      (some (), [Event.waitForConfirmation "TX1",
        Event.PendingTransactionInformation "TX1" (⟨"TX1", 0⟩, none),
        Event.Status (⟨0⟩, some "connection refused")])
    ∧ (makeAndSendAssetCreateTxn statusDownEnv 3 demoAsset "KEY" []).1 = some ("TX1", none) := by
  decide

/-- Claim C4 as amended.  Whatever the node replies, a run of
`waitForConfirmation` ends in exactly one of three ways.  It returns right after
a pending-transaction reply without error whose confirmed round is positive; or
it returns right after a failed status query that follows a reply with confirmed
round 0; or the fuel is used up, in which case every iteration has polled once.
Before the final events nothing in the transcript is a confirmed reply or a
failed status query: after a failed pending query, or a confirmed round of 0
followed by a successful status query, the waiter polls again. -/
theorem C4_waiter_exits (env : Env) (fuel : Nat) (txID : String) (tr : List Event) :
    ∃ ext, (waitForConfirmation env fuel txID tr).2
        = tr ++ Event.waitForConfirmation txID :: ext ∧
      (((waitForConfirmation env fuel txID tr).1 = some () ∧ ∃ pre pt,
          ext = pre ++ [Event.PendingTransactionInformation txID (pt, none)] ∧
            0 < pt.ConfirmedRound ∧ stillPolling pre = true)
        ∨ ((waitForConfirmation env fuel txID tr).1 = some () ∧ ∃ pre pt st e,
          ext = pre ++ [Event.PendingTransactionInformation txID (pt, none),
            Event.Status (st, some e)] ∧ pt.ConfirmedRound = 0 ∧ stillPolling pre = true)
        ∨ ((waitForConfirmation env fuel txID tr).1 = none ∧ stillPolling ext = true ∧
          ext.countP Event.isPoll = fuel)) := by
  obtain ⟨ext, h1, h2⟩ := waitLoop_outcome env txID fuel (tr ++ [Event.waitForConfirmation txID])
  have hrun : waitForConfirmation env fuel txID tr
      = waitLoop env txID fuel (tr ++ [Event.waitForConfirmation txID]) := rfl
  rw [hrun]
  exact ⟨ext, by rw [h1]; simp, h2⟩

/-- Claim C4 as amended, on a node that confirms after one further round: with
fuel for two iterations the waiter returns right after the confirming reply,
with fuel for one it is still polling. -/
theorem C4_witness :
    waitForConfirmation demoEnv 2 "TX1" [] =
      (some (), [Event.waitForConfirmation "TX1",
        Event.PendingTransactionInformation "TX1" (⟨"TX1", 0⟩, none),
        Event.Status (⟨101⟩, none),
        Event.StatusAfterBlock 102,
        Event.PendingTransactionInformation "TX1" (⟨"TX1", 102⟩, none)])
    ∧ waitForConfirmation demoEnv 1 "TX1" [] =
      (none, [Event.waitForConfirmation "TX1",
        Event.PendingTransactionInformation "TX1" (⟨"TX1", 0⟩, none),
        Event.Status (⟨101⟩, none),
        Event.StatusAfterBlock 102]) := by
  decide

/-- Claim C5.  Every run of `makeAndSendAssetCreateTxn` starts by asking the node
for its parameters and calls the transaction builder exactly once; the builder's
first valid round is the round the node reported, and its last valid round is that
round plus 1000 in unsigned 64-bit arithmetic. -/
theorem C5_valid_round_window (env : Env) (fuel : Nat) (a : AssetCreate) (k : PrivateKey) :
    ∃ args rest,
      (makeAndSendAssetCreateTxn env fuel a k []).2 =
        [Event.makeAndSendAssetCreateTxn a,
          Event.SuggestedParams (env.SuggestedParams [Event.makeAndSendAssetCreateTxn a]),
          Event.EncodeToString
            (env.SuggestedParams [Event.makeAndSendAssetCreateTxn a]).1.GenesisHash
            (env.EncodeToString
              (env.SuggestedParams [Event.makeAndSendAssetCreateTxn a]).1.GenesisHash),
          Event.MakeAssetCreateTxn args (env.MakeAssetCreateTxn args)] ++ rest
      ∧ rest.all (fun ev => !ev.isBuild) = true
      ∧ args.firstRound = (env.SuggestedParams [Event.makeAndSendAssetCreateTxn a]).1.LastRound
      ∧ args.lastRound =
          ((env.SuggestedParams [Event.makeAndSendAssetCreateTxn a]).1.LastRound + 1000)
            % 2 ^ 64 := by
  obtain ⟨rest, h1, h2⟩ := makeAndSend_trace env fuel a k []
  refine ⟨buildArgs env a [], rest, ?_, ?_, ?_, ?_⟩
  · rw [h1]
    simp [buildTrace, paramsReply, buildReply]
  · rw [List.all_eq_true]
    intro ev hev
    simp [h2 ev hev]
  · simp [buildArgs, createTxnArgs, paramsReply]
  · simp [buildArgs, createTxnArgs, paramsReply, addU64]

/-- Claim C6.  In every run of `CreateAsset`, whatever holdings the node returns
for the creator account (in whatever order the map is visited), the asset ID the
handler goes on with is the result of the discovery loop over them: the asset
lookup and the database insert that follow the read-back carry it, and no
lookup, insert or JSON answer of the run carries another ID.  That ID is 0 when
the holdings are empty, and otherwise one of the keys, greater than or equal to
every key. -/
theorem C6_discovered_asset_id_is_maximum (env : Env) (fuel : Nat) (req : Request)
    (address : String) (act : Account)
    (hread : Event.AccountInformation address (act, none) ∈ (CreateAsset env fuel req []).2) :
    (Event.AssetInformation (maxAssetID act.AssetParams) ∈ (CreateAsset env fuel req []).2 ∧
      (∃ owner err, Event.InsertNewAsset owner (Nat.repr (maxAssetID act.AssetParams)) err
        ∈ (CreateAsset env fuel req []).2) ∧
      (∀ index, Event.AssetInformation index ∈ (CreateAsset env fuel req []).2 →
        index = maxAssetID act.AssetParams) ∧
      (∀ owner assetID err, Event.InsertNewAsset owner assetID err
        ∈ (CreateAsset env fuel req []).2 → assetID = Nat.repr (maxAssetID act.AssetParams)) ∧
      (∀ resp reply, Event.Marshal resp reply ∈ (CreateAsset env fuel req []).2 →
        resp.AssetID = maxAssetID act.AssetParams)) ∧
    (act.AssetParams = [] → maxAssetID act.AssetParams = 0) ∧
    (act.AssetParams ≠ [] → maxAssetID act.AssetParams ∈ act.AssetParams ∧
      ∀ k ∈ act.AssetParams, k ≤ maxAssetID act.AssetParams) :=
  ⟨createAsset_discovers env fuel req [] (by intro ev h; simp at h) address act hread,
    maxAssetID_is_maximum act.AssetParams⟩

/-- Claim C6 at a run in which the node returns the holdings 3, 9 and 4: the
handler looks up, records and answers asset 9. -/
theorem C6_witness :
    Event.AccountInformation "CREATOR" (⟨[3, 9, 4]⟩, none)
        ∈ (CreateAsset demoEnv 3 demoRequest []).2
    ∧ Event.AssetInformation 9 ∈ (CreateAsset demoEnv 3 demoRequest []).2
    ∧ Event.InsertNewAsset "ADDR" "9" none ∈ (CreateAsset demoEnv 3 demoRequest []).2
    ∧ Event.Marshal ⟨9, "TX1"⟩ ("json", none) ∈ (CreateAsset demoEnv 3 demoRequest []).2
    ∧ maxAssetID [3, 9, 4] = 9
    ∧ (maxAssetID [3, 9, 4] ∈ [3, 9, 4] ∧ ∀ k ∈ [3, 9, 4], k ≤ maxAssetID [3, 9, 4]) :=
  ⟨by decide, by decide, by decide, by decide, by decide,
    (C6_discovered_asset_id_is_maximum demoEnv 3 demoRequest "CREATOR" ⟨[3, 9, 4]⟩
      (by decide)).2.2 (by decide)⟩

/-- Claim C7.  In every run of `makeAndSendAssetCreateTxn` that returns and in
which the broadcast succeeded with identifier `txID`, the result is `txID` with no
error; nothing the key daemon answers during the release can change it. -/
theorem C7_release_error_never_masks_outcome (env : Env) (fuel : Nat) (a : AssetCreate)
    (k : PrivateKey) (stx txID : String)
    (hdone : (makeAndSendAssetCreateTxn env fuel a k []).1 ≠ none)
    (hsent : Event.SendRawTransaction stx (txID, none)
      ∈ (makeAndSendAssetCreateTxn env fuel a k []).2) :
    (makeAndSendAssetCreateTxn env fuel a k []).1 = some (txID, none) := by
  rcases hb : (buildReply env a []).2 with _ | e
  · rcases hs : (signReply env a k []).2 with _ | e
    · rcases ht : (sendReply env a k []).2 with _ | e
      · rw [makeAndSend_sent env fuel a k [] hb hs ht] at hdone hsent ⊢
        obtain ⟨ext, h1, h2, h3⟩ := afterSend_spec env fuel a.CreatorAddr (sendReply env a k []).1
          (sendTrace env a k [])
        rw [h1] at hsent
        rcases h2 with h2 | h2
        · exact absurd h2 hdone
        · rcases List.mem_append.1 hsent with h | h
          · simp [sendTrace, signTrace, buildTrace] at h
            have hid : txID = (sendReply env a k []).1 := by rw [← h.2]
            rw [hid]
            exact h2
          · have := h3 _ h
            simp [Event.isWait, Event.isRelease] at this
      · rw [makeAndSend_send_fail env fuel a k [] e hb hs ht] at hsent
        simp [sendTrace, signTrace, buildTrace] at hsent
        rw [← hsent.2] at ht
        simp at ht
    · rw [makeAndSend_sign_fail env fuel a k [] e hb hs] at hsent
      simp [signTrace, buildTrace] at hsent
  · rw [makeAndSend_build_fail env fuel a k [] e hb] at hsent
    simp [buildTrace] at hsent

/-- Claim C7 at a run whose release fails: the key daemon is unreachable when the
key is to be deleted, and the create helper still returns the broadcast
identifier and no error. -/
theorem C7_witness :
    ((makeAndSendAssetCreateTxn kmdDownEnv 3 demoAsset "KEY" []).1 ≠ none
      ∧ Event.SendRawTransaction "stx" ("TX1", none)
          ∈ (makeAndSendAssetCreateTxn kmdDownEnv 3 demoAsset "KEY" []).2
      ∧ Event.ListWallets ([], some "kmd unreachable")
          ∈ (makeAndSendAssetCreateTxn kmdDownEnv 3 demoAsset "KEY" []).2)
    ∧ (makeAndSendAssetCreateTxn kmdDownEnv 3 demoAsset "KEY" []).1 = some ("TX1", none) :=
  ⟨by decide,
    C7_release_error_never_masks_outcome kmdDownEnv 3 demoAsset "KEY" "stx" "TX1"
      (by decide) (by decide)⟩

/-- Claim C8, evaluated where the code departs from it.  The node never reports a
confirmed round and fails the status query; `CreateAsset` nevertheless records
the asset in the database and answers with success.  No reply in the transcript
carries a positive confirmed round. -/
theorem C8_asset_recorded_without_confirmation :
    (CreateAsset statusDownEnv 3 demoRequest []).1 = some ()
    ∧ (CreateAsset statusDownEnv 3 demoRequest []).2.any Event.isConfirmedReply = false
    ∧ Event.Status (⟨0⟩, some "connection refused") ∈ (CreateAsset statusDownEnv 3 demoRequest []).2
    ∧ Event.InsertNewAsset "ADDR" "9" none ∈ (CreateAsset statusDownEnv 3 demoRequest []).2
    ∧ Event.Write "json" ∈ (CreateAsset statusDownEnv 3 demoRequest []).2 := by
  decide

/-- Claim C9 fails as stated: no wallet in the daemon's list carries the
configured name, the daemon opens a handle all the same, and the acquisition
returns a key and an address with no error. -/
theorem C9_acquire_succeeds_without_matching_wallet :
    (lenientDaemonEnv.ListWallets [Event.getPrivKeyAndAddressFromMnemonic "abandon ability"]).1.all
        (fun w => decide (w.Name ≠ lenientDaemonEnv.constants.TestWalletName)) = true
    ∧ (lenientDaemonEnv.ListWallets
        [Event.getPrivKeyAndAddressFromMnemonic "abandon ability"]).2 = none
    ∧ (getPrivKeyAndAddressFromMnemonic lenientDaemonEnv "abandon ability" []).1
        = some ("KEY", "ADDR", none) := by
  decide

/-- Claim C9 as amended.  When no wallet in the list carries the configured name,
the acquisition raises no error of its own: it asks the daemon for a handle on
the empty wallet ID.  If the daemon refuses, the acquisition returns the daemon's
error and imports nothing; if the daemon grants the handle, the acquisition goes
on to import the key under that handle. -/
theorem C9_no_matching_wallet_defers_to_daemon (env : Env) (accountMnemonic : String)
    (wallets : List Wallet)
    (hlist : env.ListWallets [Event.getPrivKeyAndAddressFromMnemonic accountMnemonic]
      = (wallets, none))
    (hno : ∀ w ∈ wallets, w.Name ≠ env.constants.TestWalletName) :
    (∀ e, (env.InitWalletHandle [Event.getPrivKeyAndAddressFromMnemonic accountMnemonic,
          Event.ListWallets (wallets, none)] "" env.constants.TestWalletPassword).2 = some e →
        getPrivKeyAndAddressFromMnemonic env accountMnemonic [] =
          (some ("", "", some e),
            [Event.getPrivKeyAndAddressFromMnemonic accountMnemonic,
              Event.ListWallets (wallets, none),
              Event.InitWalletHandle "" env.constants.TestWalletPassword
                (env.InitWalletHandle [Event.getPrivKeyAndAddressFromMnemonic accountMnemonic,
                  Event.ListWallets (wallets, none)] "" env.constants.TestWalletPassword)])) ∧
    ((env.InitWalletHandle [Event.getPrivKeyAndAddressFromMnemonic accountMnemonic,
          Event.ListWallets (wallets, none)] "" env.constants.TestWalletPassword).2 = none →
        ∃ reply, (getPrivKeyAndAddressFromMnemonic env accountMnemonic []).2 =
            [Event.getPrivKeyAndAddressFromMnemonic accountMnemonic,
              Event.ListWallets (wallets, none),
              Event.InitWalletHandle "" env.constants.TestWalletPassword
                (env.InitWalletHandle [Event.getPrivKeyAndAddressFromMnemonic accountMnemonic,
                  Event.ListWallets (wallets, none)] "" env.constants.TestWalletPassword),
              Event.ToPrivateKey accountMnemonic (env.ToPrivateKey accountMnemonic),
              Event.ImportKey
                (env.InitWalletHandle [Event.getPrivKeyAndAddressFromMnemonic accountMnemonic,
                  Event.ListWallets (wallets, none)] "" env.constants.TestWalletPassword).1
                (env.ToPrivateKey accountMnemonic).1 reply]) := by
  have hid : findWalletID env.constants.TestWalletName wallets = "" :=
    findWalletID_no_match _ wallets "" hno
  refine ⟨fun e he => ?_, fun hn => ?_⟩
  · simp [getPrivKeyAndAddressFromMnemonic, emit_bind, call_bind, hlist, hid, he, pure_run]
  · refine ⟨env.ImportKey [Event.getPrivKeyAndAddressFromMnemonic accountMnemonic,
      Event.ListWallets (wallets, none),
      Event.InitWalletHandle "" env.constants.TestWalletPassword
        (env.InitWalletHandle [Event.getPrivKeyAndAddressFromMnemonic accountMnemonic,
          Event.ListWallets (wallets, none)] "" env.constants.TestWalletPassword),
      Event.ToPrivateKey accountMnemonic (env.ToPrivateKey accountMnemonic)]
      (env.InitWalletHandle [Event.getPrivKeyAndAddressFromMnemonic accountMnemonic,
          Event.ListWallets (wallets, none)] "" env.constants.TestWalletPassword).1
      (env.ToPrivateKey accountMnemonic).1, ?_⟩
    simp [getPrivKeyAndAddressFromMnemonic, emit_bind, call_bind, hlist, hid, hn, pure_run]

/-- Claim C9 as amended, at a daemon that refuses the empty wallet ID. -/
theorem C9_witness :
    getPrivKeyAndAddressFromMnemonic strictDaemonEnv "abandon ability" [] =
      (some ("", "", some "wallet does not exist"),
        [Event.getPrivKeyAndAddressFromMnemonic "abandon ability",
          Event.ListWallets ([⟨"other", "w0"⟩], none),
          Event.InitWalletHandle "" "secret" ("", some "wallet does not exist")]) :=
  (C9_no_matching_wallet_defers_to_daemon strictDaemonEnv "abandon ability" [⟨"other", "w0"⟩]
    rfl (by decide)).1 "wallet does not exist" rfl

/-- Claim C10, evaluated where the code departs from it.  The daemon refuses to
delete the key, and `deleteAddressFromWallet` returns no error. -/
theorem C10_delete_failure_is_not_reported :
    deleteAddressFromWallet deleteFailEnv "ADDR" [] =
      (some none, [Event.deleteAddressFromWallet "ADDR",
        Event.ListWallets ([⟨"other", "w0"⟩, ⟨"testwallet", "w1"⟩], none),
        Event.InitWalletHandle "w1" "secret" ("h1", none),
        Event.DeleteKey "h1" "secret" "ADDR" (some "wrong password")]) := by
  decide

end AssetManager
